import Mathlib

/-!
Verification of the go-geoserve IP geolocation server (package `geoserve`,
file `geoserve.go`, plus `main.go`) against its natural-language
specification.

The embedding is shallow: Go strings become `List Char`, byte slices become
`List Nat`, and the external collaborators (the MaxMind decoder
`geoip2.Reader`, `net.ParseIP`, `json.Marshal`) are abstracted into explicit
function parameters, since only their contracts matter to the coordinator
logic.  The single-goroutine `run` loop is modelled as a step function on the
server state, one step per event received on `cacheGet` or `dbUpdate`.
-/

/-- Go strings, as lists of characters. -/
abbrev Str := List Char

/-- Serialized lookup results (`[]byte` in Go), abstract bytes. -/
abbrev Bytes := List Nat

/-- Splits a string on a one-character separator, keeping empty fields:
the embedding of Go `strings.Split(s, sep)` for a one-character `sep`
(as used in `clientIpFor` with separators `":"` and `","`).
Like Go's, it always returns at least one (possibly empty) field. -/
def splitOnChar (sep : Char) : Str → List Str
  | [] => [[]]
  | c :: cs =>
    if c = sep then [] :: splitOnChar sep cs
    else
      match splitOnChar sep cs with
      | [] => [[c]]
      | g :: gs => (c :: g) :: gs

/-- Unicode-simplified whitespace test backing `strings.TrimSpace`. -/
def isSpace (c : Char) : Bool :=
  c = ' ' || c = '\t' || c = '\n' || c = '\r'

/-- The embedding of Go `strings.TrimSpace`: drop leading and trailing
whitespace. -/
def trimSpace (s : Str) : Str :=
  ((s.dropWhile isSpace).reverse.dropWhile isSpace).reverse

/-- The embedding of Go `strings.Replace(s, pat, "", 1)` as used in
`GeoServer.Handle`: delete the first occurrence of `pat` from `s`
(when `pat` is empty Go inserts the empty replacement, leaving `s`
unchanged, which the `List.drop 0` branch reproduces). -/
def replaceFirst (pat : Str) : Str → Str
  | [] => []
  | c :: cs =>
    if pat.isPrefixOf (c :: cs) then List.drop pat.length (c :: cs)
    else c :: replaceFirst pat cs

/-- The external collaborators used by `lookupDB`: `net.ParseIP` (returning
`none` for Go's `nil` on an unparseable address) and `json.Marshal`
(returning `none` when serialization fails).  Parsed addresses and decoded
records are abstract (`Nat`). -/
structure Externals where
  parseIP : Str → Option Nat
  marshal : Nat → Option Bytes

/-- An open `geoip2.Reader` database handle: an identity (used to track which
handles have been `Close`d) and the decoder lookup `City`, which takes the
possibly-`nil` result of `net.ParseIP` and either errors or yields a decoded
record. -/
structure Reader where
  rid : Nat
  city : Option Nat → Except Str Nat

/-- Modelled from the spec: the `github.com/golang/groupcache/lru` dependency
is not part of this repository's sources, so the Response Cache is modelled
after the spec's contract (§4.2): a bounded mapping from IP string to bytes,
entries ordered most-recently-used first, `get` marking the accessed key as
most recently used, `add` evicting the least-recently-used entry once the
configured capacity is exceeded. -/
structure LRU where
  maxEntries : Nat
  entries : List (Str × Bytes)
deriving DecidableEq

/-- Modelled from the spec: a fresh empty cache with the given capacity
(`lru.New(maxEntries)`). -/
def lruNew (maxEntries : Nat) : LRU :=
  { maxEntries := maxEntries, entries := [] }

/-- Modelled from the spec: `cache.Get(key)` returns the cached value if
present, marking the entry as most recently used (moving it to the front);
a miss leaves the cache unchanged. -/
def LRU.get (c : LRU) (k : Str) : Option Bytes × LRU :=
  match c.entries.find? (fun p => p.1 == k) with
  | none => (none, c)
  | some p =>
    (some p.2, { maxEntries := c.maxEntries,
                 entries := p :: c.entries.filter (fun q => q.1 != k) })

/-- Modelled from the spec: `cache.Add(key, value)` inserts the entry as most
recently used (replacing any existing entry for the key) and, if the cache
then exceeds its capacity, evicts the least-recently-used entry (the last
one). -/
def LRU.add (c : LRU) (k : Str) (v : Bytes) : LRU :=
  let es := (k, v) :: c.entries.filter (fun q => q.1 != k)
  if c.maxEntries ≠ 0 ∧ es.length > c.maxEntries then
    { maxEntries := c.maxEntries, entries := es.dropLast }
  else
    { maxEntries := c.maxEntries, entries := es }

/-- The configured cache capacity (`CacheSize = 50000` in `geoserve.go`). -/
def CacheSize : Nat := 50000

/-- The `GeoServer` state owned by the `run` goroutine: the active database
handle (`nil` when none is installed), the database URL, and the response
cache.  `closedIds` is instrumentation recording the identities of handles on
which `Close()` has been called, so that use-after-close is statable. -/
structure GeoServer where
  db : Option Reader
  dbURL : Str
  cache : LRU
  closedIds : List Nat

/-- The embedding of `GeoServer.lookupDB`: fail (`nil, err`) when no database
is installed; otherwise run `db.City(net.ParseIP(ip))` and `json.Marshal` on
the result, failing if either step errors.  `none` stands for Go's
`(nil, err)` pair. -/
def lookupDB (ext : Externals) (server : GeoServer) (ip : Str) : Option Bytes :=
  match server.db with
  | none => none
  | some db =>
    match db.city (ext.parseIP ip) with
    | .error _ => none
    | .ok geoData =>
      match ext.marshal geoData with
      | none => none
      | some jsonData => some jsonData

/-- The `case g := <-server.cacheGet` branch of `GeoServer.run`: on a cache
hit reply with the cached bytes; on a miss run `lookupDB`, cache the result
only on success, and reply with the bytes (or with `nil`, modelled `none`, on
failure).  Returns the updated state and the value sent on `g.resp`. -/
def handleLookup (ext : Externals) (server : GeoServer) (ip : Str) :
    GeoServer × Option Bytes :=
  match server.cache.get ip with
  | (some cached, cache') => ({ server with cache := cache' }, some cached)
  | (none, _) =>
    match lookupDB ext server ip with
    | none => (server, none)
    | some jsonData =>
      ({ server with cache := server.cache.add ip jsonData }, some jsonData)

/-- Observable actions performed by the `case db := <-server.dbUpdate`
branch, in order: closing the old handle, installing the new one, replacing
the cache. -/
inductive SwapAction where
  | close (rid : Nat)
  | install (rid : Nat)
  | clearCache
deriving DecidableEq

/-- The `case db := <-server.dbUpdate` branch of `GeoServer.run`: close the
old database handle if one exists, install the new handle, and replace the
cache with a fresh empty one.  Returns the new state together with the trace
of actions in the order the Go code performs them (`Close` first, then the
assignment to `server.db`, then the assignment to `server.cache`). -/
def dbUpdateStep (server : GeoServer) (db : Reader) : GeoServer × List SwapAction :=
  let (closed, closeTrace) :=
    match server.db with
    | some old => (old.rid :: server.closedIds, [SwapAction.close old.rid])
    | none => (server.closedIds, [])
  ({ server with
      db := some db
      cache := lruNew CacheSize
      closedIds := closed },
   closeTrace ++ [SwapAction.install db.rid, SwapAction.clearCache])

/-- An event consumed by one iteration of the `run` loop: a lookup request
from `cacheGet` or a replacement database from `dbUpdate`. -/
inductive Event where
  | lookup (ip : Str)
  | replace (db : Reader)

/-- One iteration of `GeoServer.run`, dispatching on the event received. -/
def stepEv (ext : Externals) (server : GeoServer) : Event → GeoServer
  | .lookup ip => (handleLookup ext server ip).1
  | .replace db => (dbUpdateStep server db).1

/-- The `run` loop over a finite list of received events. -/
def runEvents (ext : Externals) (server : GeoServer) : List Event → GeoServer
  | [] => server
  | e :: es => runEvents ext (stepEv ext server e) es

/-- The active handle has not been closed. -/
def dbOpen (server : GeoServer) : Prop :=
  ∀ db, server.db = some db → db.rid ∉ server.closedIds

/-- A replacement handle delivered on `dbUpdate` is fresh: the Refresh Driver
opens it from newly downloaded bytes, so it is not a handle that was closed
before and differs from the currently active handle. -/
def freshFor (server : GeoServer) : Event → Prop
  | .lookup _ => True
  | .replace db => db.rid ∉ server.closedIds ∧
      ∀ old, server.db = some old → db.rid ≠ old.rid

/-- Every replacement event in the trace is fresh at the point it is
processed. -/
def freshTrace (ext : Externals) (server : GeoServer) : List Event → Prop
  | [] => True
  | e :: es => freshFor server e ∧ freshTrace ext (stepEv ext server e) es

/-- The embedding of `NewServer(dbFile, dbURL)` (with `go server.run()` and
`go server.keepDbCurrent(lastModified)` elided; they are modelled by
`runEvents` and `keepDbCurrentRun`).  `readDbFromFile` abstracts the
file-system loader of the same name: `none` is a read/stat/open error,
`some (db, lastModified)` a success.  When `dbFile` is nonempty the initial
database is loaded from disk, and an error aborts construction (`none`).
When `dbFile` is empty the source's call to `readDbFromWeb` is COMMENTED OUT
(geoserve.go lines 64-69), so `server.db` remains `nil` and `lastModified`
remains the zero time (modelled `0`).  Returns the constructed server and the
`lastModified` value handed to `keepDbCurrent`. -/
def NewServer (dbFile dbURL : Str)
    (readDbFromFile : Str → Option (Reader × Nat)) :
    Option (GeoServer × Nat) :=
  if dbFile ≠ [] then
    match readDbFromFile dbFile with
    | none => none
    | some (db, lastModified) =>
      some ({ db := some db
              dbURL := dbURL
              cache := lruNew CacheSize
              closedIds := [] }, lastModified)
  else
    some ({ db := none
            dbURL := dbURL
            cache := lruNew CacheSize
            closedIds := [] }, 0)

/-- The outcome of one `readDbFromWeb` call, abstracted: HTTP 304 yields
`notModified` (`errNotModified` in the source), any other failure (network
error, non-200 status, archive error) yields `fetchErr`, and success yields
the new handle and the remote's `Last-Modified` time. -/
inductive FetchResult where
  | notModified
  | fetchErr
  | ok (db : Reader) (modifiedTime : Nat)

/-- What one call of `GeoServer.updateDb` does, given the outcome of its
`readDbFromWeb` call: the deferred sleep interval in minutes (initialized to
one hour, shortened to five minutes on either failure path), the returned
`(time, err)` pair (`none` for the zero time plus an error), and the handle
sent on `server.dbUpdate` (only on success). -/
structure UpdateOutcome where
  sleepMinutes : Nat
  result : Option Nat
  sent : Option Reader

/-- The embedding of `GeoServer.updateDb`. -/
def updateDb : FetchResult → UpdateOutcome
  | .notModified => { sleepMinutes := 5, result := none, sent := none }
  | .fetchErr => { sleepMinutes := 5, result := none, sent := none }
  | .ok db modifiedTime =>
      { sleepMinutes := 60, result := some modifiedTime, sent := some db }

/-- One iteration of the `keepDbCurrent` loop: call `updateDb`; on error log
and keep `lastModified` unchanged, on success adopt the returned time.
Returns the `lastModified` for the next iteration and the iteration's
outcome. -/
def keepDbCurrentStep (lastModified : Nat) (fetch : FetchResult) :
    Nat × UpdateOutcome :=
  let u := updateDb fetch
  match u.result with
  | none => (lastModified, u)
  | some lm => (lm, u)

/-- The `keepDbCurrent` loop run over a finite prefix of fetch outcomes:
every iteration completes (errors are logged and retried, never fatal), and
each produces one outcome. -/
def keepDbCurrentRun (lastModified : Nat) :
    List FetchResult → Nat × List UpdateOutcome
  | [] => (lastModified, [])
  | f :: fs =>
    let (lm, u) := keepDbCurrentStep lastModified f
    let (lmEnd, us) := keepDbCurrentRun lm fs
    (lmEnd, u :: us)

/-- Applies the (at most one) `dbUpdate` event emitted by an `updateDb` call
to the coordinator state: no event means the state is untouched. -/
def applyEvent (server : GeoServer) : Option Reader → GeoServer
  | none => server
  | some db => (dbUpdateStep server db).1

/-- The embedding of `clientIpFor`: take the `X-Forwarded-For` header, or,
when it is absent (empty), the part of `req.RemoteAddr` before the first
`':'`; then split on `','` and return the first entry with surrounding
whitespace trimmed. -/
def clientIpFor (xForwardedFor remoteAddr : Str) : Str :=
  let clientIp :=
    if xForwardedFor = [] then
      (splitOnChar ':' remoteAddr).headD []
    else xForwardedFor
  let ips := splitOnChar ',' clientIp
  trimSpace (ips.headD [])

/-- The IP-resolution part of `GeoServer.Handle`: strip the first occurrence
of `basePath` from the request path and use the remainder as the IP; when
that is empty, fall back to `clientIpFor`. -/
def handleIp (urlPath basePath xForwardedFor remoteAddr : Str) : Str :=
  let path := replaceFirst basePath urlPath
  if path = [] then clientIpFor xForwardedFor remoteAddr else path

/-- Characters that can occur in a textual IPv4 or IPv6 address literal
(digits, hex digits, `'.'` and `':'`); a string containing any other
character is not an IP address literal. -/
def validIPChar (c : Char) : Bool :=
  c.isDigit || (('a' ≤ c && c ≤ 'f') || ('A' ≤ c && c ≤ 'F')) ||
    c = '.' || c = ':'

/-- Concrete instantiation of the external collaborators, consistent with
`net.ParseIP` and `json.Marshal`: the two textual spellings of the IPv6
loopback address parse to the same address (here `1`), anything else is
unparseable; serialization always succeeds. -/
def extLoopback : Externals :=
  { parseIP := fun s =>
      if s = "::1".toList ∨ s = "0:0:0:0:0:0:0:1".toList then some 1
      else none
    marshal := fun geoData => some [geoData] }

/-- A database handle that decodes every parsed address and errors on `nil`
(as `geoip2.Reader.City` does on a `nil` IP). -/
def readerOk : Reader :=
  { rid := 0
    city := fun a =>
      match a with
      | some n => .ok n
      | none => .error "nil ip".toList }

/-- A second, fresh database handle, as delivered by the Refresh Driver. -/
def readerNew : Reader :=
  { rid := 1
    city := fun a =>
      match a with
      | some n => .ok (n + 100)
      | none => .error "nil ip".toList }

/-- A server state with a database installed and an empty cache. -/
def serverWithDb : GeoServer :=
  { db := some readerOk
    dbURL := "https://updates.example/GeoLite2-City.tar.gz".toList
    cache := lruNew CacheSize
    closedIds := [] }

/-- A server state with no database installed (`server.db == nil`). -/
def serverNoDb : GeoServer :=
  { db := none
    dbURL := "https://updates.example/GeoLite2-City.tar.gz".toList
    cache := lruNew CacheSize
    closedIds := [] }

/-- The canonical spelling of the IPv6 loopback address. -/
def loopA : Str := "::1".toList

/-- The expanded spelling of the same IPv6 loopback address. -/
def loopB : Str := "0:0:0:0:0:0:0:1".toList

/-- A string that `extLoopback.parseIP` rejects, like `net.ParseIP` on a
non-IP string. -/
def badIp : Str := "not-an-ip".toList

/-- C1: for every Lookup(ip) event processed by the Coordinator loop: a
cache hit replies with the cached bytes; on a miss with no active database
the reply is the failure marker and the state is unchanged; on a miss with a
successful database lookup the serialized result is inserted into the cache
and returned; on a miss where the lookup fails (decode or serialize failure)
the reply is the failure marker and nothing is inserted into the cache. -/
theorem c1_lookup_event (ext : Externals) (server : GeoServer) (ip : Str) :
    (∀ v cache', server.cache.get ip = (some v, cache') →
      handleLookup ext server ip = ({ server with cache := cache' }, some v)) ∧
    ((server.cache.get ip).1 = none → server.db = none →
      handleLookup ext server ip = (server, none)) ∧
    (∀ jsonData, (server.cache.get ip).1 = none →
      lookupDB ext server ip = some jsonData →
      handleLookup ext server ip =
        ({ server with cache := server.cache.add ip jsonData }, some jsonData)) ∧
    ((server.cache.get ip).1 = none → server.db ≠ none →
      lookupDB ext server ip = none →
      handleLookup ext server ip = (server, none)) := by
  refine ⟨?_, ?_, ?_, ?_⟩
  · intro v cache' h
    simp [handleLookup, h]
  · intro h1 h2
    rcases hg : server.cache.get ip with ⟨fst, snd⟩
    rw [hg] at h1; subst h1
    simp [handleLookup, hg, lookupDB, h2]
  · intro jsonData h1 h2
    rcases hg : server.cache.get ip with ⟨fst, snd⟩
    rw [hg] at h1; subst h1
    simp [handleLookup, hg, h2]
  · intro h1 _ h3
    rcases hg : server.cache.get ip with ⟨fst, snd⟩
    rw [hg] at h1; subst h1
    simp [handleLookup, hg, h3]

/-- Witness for C1 at concrete inputs: a miss with a working database caches
and returns the serialized record; a miss with no database and a miss with an
unparseable address both reply with the failure marker and leave the state
unchanged. -/
theorem c1_lookup_event_witness :
    handleLookup extLoopback serverWithDb loopA =
      ({ serverWithDb with cache := serverWithDb.cache.add loopA [1] },
        some [1]) ∧
    handleLookup extLoopback serverNoDb loopA = (serverNoDb, none) ∧
    handleLookup extLoopback serverWithDb badIp = (serverWithDb, none) :=
  ⟨(c1_lookup_event extLoopback serverWithDb loopA).2.2.1 [1] (by decide)
      (by decide),
   (c1_lookup_event extLoopback serverNoDb loopA).2.1 (by decide) rfl,
   (c1_lookup_event extLoopback serverWithDb badIp).2.2.2 (by decide)
      (by simp [serverWithDb]) (by decide)⟩

/-- C2: processing a ReplaceDatabase event replaces the cache with a fresh
empty one — every key (in particular every previously cached key) misses
afterwards — installs the new handle, and a subsequent Lookup is computed by
the database lookup on the new state (whose active database is the newly
installed handle), not from the old cache. -/
theorem c2_cache_invalidation (ext : Externals) (server : GeoServer)
    (db : Reader) (k ip : Str) :
    (((dbUpdateStep server db).1.cache.get k).1 = none) ∧
    ((dbUpdateStep server db).1.db = some db) ∧
    ((handleLookup ext (dbUpdateStep server db).1 ip).2 =
      lookupDB ext (dbUpdateStep server db).1 ip) := by
  have hstate : (dbUpdateStep server db).1.cache = lruNew CacheSize ∧
      (dbUpdateStep server db).1.db = some db := by
    cases hdb : server.db <;> simp [dbUpdateStep, hdb]
  have hget : ∀ key, ((dbUpdateStep server db).1.cache.get key).1 = none := by
    intro key
    rw [hstate.1]
    simp [LRU.get, lruNew]
  refine ⟨hget k, hstate.2, ?_⟩
  rcases hg : (dbUpdateStep server db).1.cache.get ip with ⟨fst, snd⟩
  have : fst = none := by
    have := hget ip
    rw [hg] at this; exact this
  subst this
  cases hl : lookupDB ext (dbUpdateStep server db).1 ip <;>
    simp [handleLookup, hg, hl]

/-- A server state whose active handle is `readerOk` (identity 0), with
nothing closed yet. -/
def serverOld : GeoServer := serverWithDb

theorem handleLookup_db (ext : Externals) (server : GeoServer) (ip : Str) :
    (handleLookup ext server ip).1.db = server.db ∧
    (handleLookup ext server ip).1.closedIds = server.closedIds := by
  unfold handleLookup
  rcases hg : server.cache.get ip with ⟨fst, snd⟩
  cases fst
  · cases hl : lookupDB ext server ip <;> simp
  · simp

theorem dbOpen_step (ext : Externals) (server : GeoServer) (e : Event)
    (h : dbOpen server) (hf : freshFor server e) :
    dbOpen (stepEv ext server e) := by
  cases e with
  | lookup ip =>
    intro db hdb
    have hd := handleLookup_db ext server ip
    rw [stepEv, hd.2]
    exact h db (hd.1 ▸ hdb)
  | replace db =>
    intro db' hdb'
    rcases hf with ⟨hfresh, hne⟩
    cases hdbold : server.db with
    | none =>
      simp [stepEv, dbUpdateStep, hdbold] at hdb' ⊢
      subst hdb'; exact hfresh
    | some old =>
      simp [stepEv, dbUpdateStep, hdbold] at hdb' ⊢
      subst hdb'
      exact ⟨hne old hdbold, hfresh⟩

theorem runEvents_append (ext : Externals) (server : GeoServer)
    (es fs : List Event) :
    runEvents ext server (es ++ fs) = runEvents ext (runEvents ext server es) fs := by
  induction es generalizing server with
  | nil => rfl
  | cons e es ih => simp [runEvents, ih]

theorem freshTrace_append (ext : Externals) (server : GeoServer)
    (es fs : List Event) (h : freshTrace ext server (es ++ fs)) :
    freshTrace ext server es ∧
      freshTrace ext (runEvents ext server es) fs := by
  induction es generalizing server with
  | nil => exact ⟨trivial, h⟩
  | cons e es ih =>
    rcases h with ⟨h1, h2⟩
    rcases ih (stepEv ext server e) h2 with ⟨ih1, ih2⟩
    exact ⟨⟨h1, ih1⟩, ih2⟩

theorem dbOpen_runEvents (ext : Externals) (server : GeoServer)
    (es : List Event) (h : dbOpen server) (hf : freshTrace ext server es) :
    dbOpen (runEvents ext server es) := by
  induction es generalizing server with
  | nil => exact h
  | cons e es ih =>
    rcases hf with ⟨hf1, hf2⟩
    exact ih (stepEv ext server e) (dbOpen_step ext server e h hf1) hf2

/-- Counterexample to C3: in the dbUpdate branch, the old handle is closed
(action index 0) strictly before the new handle is installed (action index
1) — the release is not "only after the swap is published". -/
theorem c3_counterexample :
    (dbUpdateStep serverOld readerNew).2 =
      [SwapAction.close 0, SwapAction.install 1, SwapAction.clearCache] ∧
    (dbUpdateStep serverOld readerNew).2.indexOf (SwapAction.close 0) <
      (dbUpdateStep serverOld readerNew).2.indexOf (SwapAction.install 1) := by
  constructor
  · rfl
  · decide

/-- C3 (amended): when a ReplaceDatabase event is processed with an active
database, the old handle is closed FIRST and the new handle installed
afterwards (close, install, clear — in that order); nevertheless, because the
whole replacement is one atomic iteration of the serialized run loop, a
Lookup is only ever processed between iterations, so along any event trace in
which delivered replacement handles are fresh, the active database consulted
by any Lookup is never a closed handle. -/
theorem c3_amended (ext : Externals) (server : GeoServer)
    (db old : Reader) (hdb : server.db = some old) (hopen : dbOpen server) :
    ((dbUpdateStep server db).2 =
      [SwapAction.close old.rid, SwapAction.install db.rid,
        SwapAction.clearCache]) ∧
    (∀ es, freshTrace ext server es → dbOpen (runEvents ext server es)) ∧
    (∀ pre ip post, freshTrace ext server (pre ++ Event.lookup ip :: post) →
      ∀ r, (runEvents ext server pre).db = some r →
        r.rid ∉ (runEvents ext server pre).closedIds) := by
  refine ⟨by simp [dbUpdateStep, hdb], ?_, ?_⟩
  · intro es hf
    exact dbOpen_runEvents ext server es hopen hf
  · intro pre ip post hf r hr
    have hpre := (freshTrace_append ext server pre (Event.lookup ip :: post) hf).1
    exact dbOpen_runEvents ext server pre hopen hpre r hr

/-- Witness for the amended C3 at concrete inputs: replacing `readerOk`
(identity 0) by `readerNew` (identity 1) yields the close-install-clear
trace, and after the replacement followed by a lookup the active handle is
still unclosed. -/
theorem c3_amended_witness :
    ((dbUpdateStep serverOld readerNew).2 =
      [SwapAction.close 0, SwapAction.install 1, SwapAction.clearCache]) ∧
    dbOpen (runEvents extLoopback serverOld
      [Event.replace readerNew, Event.lookup loopA]) := by
  have h := c3_amended extLoopback serverOld readerNew readerOk rfl
    (by intro db hdb; simp [serverOld, serverWithDb] at hdb; subst hdb; simp [serverOld, serverWithDb, readerOk])
  refine ⟨h.1, h.2.1 [Event.replace readerNew, Event.lookup loopA] ?_⟩
  refine ⟨⟨by simp [serverOld, serverWithDb, readerNew], ?_⟩, trivial, trivial⟩
  intro old hold
  simp [serverOld, serverWithDb] at hold
  subst hold
  simp [readerNew, readerOk]

/-- The remote database URL used in the concrete scenarios. -/
def urlEx : Str := "https://updates.example/GeoLite2-City.tar.gz".toList

/-- A nonempty local database file path. -/
def fileEx : Str := "/tmp/GeoLite2-City.mmdb".toList

/-- A file loader on which every read fails (missing or corrupt file). -/
def readAlwaysFails : Str → Option (Reader × Nat) := fun _ => none

/-- C4 (code bug): with no local database file configured (`dbFile == ""`),
`NewServer` succeeds WITHOUT obtaining any initial database — the call to
`readDbFromWeb` is commented out in the source, contradicting `NewServer`'s
own doc comment ("If dbFile is \x22\x22, then this will fetch the latest
GeoLite2-City database from the specified DBURL") — and the server starts
serving lookups with `db == nil`, every lookup failing.  Only the local-file
branch behaves as claimed: a failing file read aborts construction. -/
theorem c4_no_initial_database :
    (∃ server, NewServer [] urlEx readAlwaysFails = some (server, 0) ∧
      server.db = none ∧
      (handleLookup extLoopback server loopA).2 = none) ∧
    NewServer fileEx urlEx readAlwaysFails = none := by
  refine ⟨⟨{ db := none, dbURL := urlEx, cache := lruNew CacheSize,
             closedIds := [] }, rfl, rfl, by decide⟩, rfl⟩

/-- C5: each `updateDb` call sleeps the short interval (5 minutes) exactly
when the conditional fetch reported not-modified or an error, and the long
interval (1 hour) exactly when a new database version was fetched (in which
case that version is handed to the Coordinator via `dbUpdate`); and the
`keepDbCurrent` loop completes one iteration per fetch outcome regardless of
errors — errors are logged and retried, never fatal. -/
theorem c5_refresh_backoff (fetch : FetchResult) (lastModified : Nat)
    (fs : List FetchResult) :
    ((updateDb fetch).sleepMinutes = 5 ↔
      (fetch = .notModified ∨ fetch = .fetchErr)) ∧
    ((updateDb fetch).sleepMinutes = 60 ↔
      ∃ db t, fetch = .ok db t) ∧
    (∀ db t, fetch = .ok db t → (updateDb fetch).sent = some db) ∧
    ((keepDbCurrentRun lastModified fs).2.length = fs.length) := by
  refine ⟨?_, ?_, ?_, ?_⟩
  · cases fetch <;> simp [updateDb]
  · cases fetch <;> simp [updateDb]
  · intro db t h; subst h; rfl
  · induction fs generalizing lastModified with
    | nil => rfl
    | cons f fs ih =>
      simp only [keepDbCurrentRun, List.length_cons]
      rw [ih]

/-- Witness for C5 at concrete inputs: not-modified and error outcomes sleep
5 minutes, a successful fetch sleeps 60 minutes and emits the new handle, and
a three-iteration run with an error in the middle completes all three
iterations. -/
theorem c5_refresh_backoff_witness :
    ((updateDb .notModified).sleepMinutes = 5 ↔
      (FetchResult.notModified = .notModified ∨
        FetchResult.notModified = .fetchErr)) ∧
    (updateDb (.ok readerNew 42)).sent = some readerNew ∧
    (keepDbCurrentRun 0 [.ok readerOk 7, .fetchErr, .ok readerNew 42]).2.length
      = 3 :=
  ⟨(c5_refresh_backoff .notModified 0 []).1,
   (c5_refresh_backoff (.ok readerNew 42) 0 []).2.2.1 readerNew 42 rfl,
   (c5_refresh_backoff .notModified 0
      [.ok readerOk 7, .fetchErr, .ok readerNew 42]).2.2.2⟩

/-- C6: a conditional fetch returning not-modified emits no ReplaceDatabase
event, so the Coordinator state (active database and cache) is unchanged, and
`lastModified` is kept as it was; moreover `lastModified` changes only on a
successful fetch, and then to the modification time reported by the remote. -/
theorem c6_not_modified_frame (server : GeoServer) (lastModified : Nat)
    (fetch : FetchResult) :
    ((updateDb .notModified).sent = none) ∧
    (applyEvent server (updateDb .notModified).sent = server) ∧
    ((keepDbCurrentStep lastModified .notModified).1 = lastModified) ∧
    (∀ lm', (keepDbCurrentStep lastModified fetch).1 = lm' →
      lm' ≠ lastModified → ∃ db t, fetch = .ok db t ∧ lm' = t) := by
  refine ⟨rfl, rfl, rfl, ?_⟩
  intro lm' hstep hne
  cases fetch with
  | notModified => exact absurd hstep.symm hne
  | fetchErr => exact absurd hstep.symm hne
  | ok db t => exact ⟨db, t, rfl, hstep.symm⟩

/-- Witness for C6 at concrete inputs: a not-modified outcome leaves a
server state and `lastModified = 10` untouched, and a successful fetch
reporting time 42 moves `lastModified` from 10 to exactly 42. -/
theorem c6_not_modified_frame_witness :
    ((updateDb .notModified).sent = none) ∧
    (applyEvent serverWithDb (updateDb .notModified).sent = serverWithDb) ∧
    ((keepDbCurrentStep 10 .notModified).1 = 10) ∧
    (∃ db t, FetchResult.ok readerNew 42 = FetchResult.ok db t ∧
      (keepDbCurrentStep 10 (.ok readerNew 42)).1 = t) :=
  ⟨(c6_not_modified_frame serverWithDb 10 .notModified).1,
   (c6_not_modified_frame serverWithDb 10 .notModified).2.1,
   (c6_not_modified_frame serverWithDb 10 .notModified).2.2.1,
   (c6_not_modified_frame serverWithDb 10 (.ok readerNew 42)).2.2.2
      (keepDbCurrentStep 10 (.ok readerNew 42)).1 rfl (by decide)⟩

theorem length_filter_lt_of_mem {α : Type} (l : List α) (p : α → Bool)
    (a : α) (ha : a ∈ l) (hpa : p a = false) :
    (l.filter p).length < l.length := by
  obtain ⟨s, t, rfl⟩ := List.append_of_mem ha
  have h1 := List.length_filter_le p s
  have h2 := List.length_filter_le p t
  simp [List.filter_append, List.filter_cons, hpa]
  omega

/-- A fully occupied two-entry cache, `10.0.0.2` most recently used last. -/
def lruTwo : LRU :=
  { maxEntries := 2
    entries := [("10.0.0.1".toList, [1]), ("10.0.0.2".toList, [2])] }

/-- C7: the response cache never exceeds its configured capacity of
`CacheSize = 50000` entries (neither `Add` nor `Get` can push it past the
bound); an `Add` of a new key to a full cache evicts exactly the
least-recently-used entry (the last one), keeping all others; and a `Get` hit
marks the accessed key as most recently used (it moves to the front). -/
theorem c7_lru_capacity (c : LRU) (k : Str) (v : Bytes) :
    (c.maxEntries = CacheSize → c.entries.length ≤ CacheSize →
      (c.add k v).entries.length ≤ CacheSize ∧
      ((c.get k).2).entries.length ≤ CacheSize) ∧
    (c.entries.length = c.maxEntries → 0 < c.maxEntries →
      c.entries.find? (fun p => p.1 == k) = none →
      (c.add k v).entries = (k, v) :: c.entries.dropLast) ∧
    (∀ w c', c.get k = (some w, c') → c'.entries.head? = some (k, w)) := by
  refine ⟨?_, ?_, ?_⟩
  · intro hmax hlen
    constructor
    · have hfl := List.length_filter_le (fun q => q.1 != k) c.entries
      unfold LRU.add
      by_cases h : c.maxEntries ≠ 0 ∧
          ((k, v) :: c.entries.filter (fun q => q.1 != k)).length > c.maxEntries
      · rw [if_pos h]
        simp only [List.length_dropLast, List.length_cons]
        omega
      · rw [if_neg h]
        simp only [List.length_cons]
        have hne : c.maxEntries ≠ 0 := by rw [hmax]; decide
        have hle : ¬ ((k, v) :: c.entries.filter (fun q => q.1 != k)).length >
            c.maxEntries := fun hgt => h ⟨hne, hgt⟩
        simp only [gt_iff_lt, not_lt, List.length_cons] at hle
        omega
    · unfold LRU.get
      cases hf : c.entries.find? (fun p => p.1 == k) with
      | none => simpa using hlen
      | some p =>
        have hmem := List.mem_of_find?_eq_some hf
        have hp := List.find?_some hf
        have hfil := length_filter_lt_of_mem c.entries
          (fun q => q.1 != k) p hmem (by simp [bne]; simpa using hp)
        simp only [List.length_cons]
        omega
  · intro hlen hpos hnone
    have hfil : c.entries.filter (fun q => q.1 != k) = c.entries := by
      apply List.filter_eq_self.mpr
      intro a ha
      have := List.find?_eq_none.mp hnone a ha
      simp only [bne]
      simp only [Bool.not_eq_true] at this ⊢
      simp [this]
    unfold LRU.add
    simp only [hfil]
    rw [if_pos ⟨by omega, by simp [List.length_cons]; omega⟩]
    cases hc : c.entries with
    | nil => rw [hc] at hlen; simp at hlen; omega
    | cons x xs => simp [List.dropLast_cons₂]
  · intro w c' h
    unfold LRU.get at h
    cases hf : c.entries.find? (fun p => p.1 == k) with
    | none => rw [hf] at h; simp at h
    | some p =>
      rw [hf] at h
      have hp := List.find?_some hf
      have hk : p.1 = k := by simpa using hp
      obtain ⟨h1, h2⟩ := Prod.mk.injEq .. ▸ h
      cases p with
      | mk p1 p2 =>
        simp only at hk
        subst hk
        injection h1 with h1
        subst h1
        rw [← h2]
        rfl

/-- Witness for C7 at concrete inputs: adding to and reading an empty
full-capacity cache stays within capacity; adding a third address to a full
two-entry cache evicts exactly the oldest entry; reading the second entry of
the two-entry cache moves it to the front. -/
theorem c7_lru_capacity_witness :
    ((lruNew CacheSize).add "10.0.0.1".toList [1]).entries.length ≤
      CacheSize ∧
    (lruTwo.add "10.0.0.3".toList [3]).entries =
      ("10.0.0.3".toList, [3]) :: lruTwo.entries.dropLast ∧
    (lruTwo.get "10.0.0.2".toList).2.entries.head? =
      some ("10.0.0.2".toList, [2]) :=
  ⟨((c7_lru_capacity (lruNew CacheSize) "10.0.0.1".toList [1]).1 rfl
      (by decide)).1,
   (c7_lru_capacity lruTwo "10.0.0.3".toList [3]).2.1 rfl (by decide)
      (by decide),
   (c7_lru_capacity lruTwo "10.0.0.2".toList [3]).2.2 [2]
      (lruTwo.get "10.0.0.2".toList).2 (by decide)⟩

theorem splitOnChar_ne_nil (sep : Char) (s : Str) : splitOnChar sep s ≠ [] := by
  cases s with
  | nil => simp [splitOnChar]
  | cons c cs =>
    unfold splitOnChar
    by_cases h : c = sep
    · simp [h]
    · rw [if_neg h]
      cases hs : splitOnChar sep cs <;> simp

theorem headD_splitOnChar (sep : Char) (s : Str) :
    (splitOnChar sep s).headD [] = s.takeWhile (fun c => c != sep) := by
  induction s with
  | nil => rfl
  | cons c cs ih =>
    unfold splitOnChar
    by_cases h : c = sep
    · rw [if_pos h]
      have : (c != sep) = false := by simp [bne, h]
      simp [List.takeWhile_cons, this]
    · rw [if_neg h]
      have hb : (c != sep) = true := by simp [bne, h]
      cases hs : splitOnChar sep cs with
      | nil => exact absurd hs (splitOnChar_ne_nil sep cs)
      | cons g gs =>
        rw [hs] at ih
        simp only [List.headD_cons] at ih
        simp [List.takeWhile_cons, hb, ← ih]

/-- C8: the subject IP of a request is the path remainder after stripping the
base path when that is non-empty; otherwise the first comma-separated entry
of the `X-Forwarded-For` header, trimmed, when the header is present;
otherwise the peer host taken from `req.RemoteAddr` (shown here for a
host-colon-port peer address whose host part is comma-free and has no
surrounding whitespace).  Concretely, an explicit path IP wins, and with no
explicit IP and header `"203.0.113.5, 10.0.0.1"` the resolved IP is
`"203.0.113.5"`. -/
theorem c8_subject_ip (urlPath basePath xff remoteAddr host : Str) :
    (replaceFirst basePath urlPath ≠ [] →
      handleIp urlPath basePath xff remoteAddr = replaceFirst basePath urlPath) ∧
    (replaceFirst basePath urlPath = [] → xff ≠ [] →
      handleIp urlPath basePath xff remoteAddr =
        trimSpace ((splitOnChar ',' xff).headD [])) ∧
    (replaceFirst basePath urlPath = [] → xff = [] →
      (splitOnChar ':' remoteAddr).headD [] = host →
      splitOnChar ',' host = [host] → trimSpace host = host →
      handleIp urlPath basePath xff remoteAddr = host) ∧
    (handleIp "/lookup/66.69.242.177".toList "/lookup/".toList [] [] =
      "66.69.242.177".toList) ∧
    (handleIp "/lookup/".toList "/lookup/".toList
      "203.0.113.5, 10.0.0.1".toList "10.1.2.3:5555".toList =
      "203.0.113.5".toList) := by
  refine ⟨?_, ?_, ?_, by decide, by decide⟩
  · intro hne
    simp [handleIp, hne]
  · intro hempty hxff
    simp [handleIp, hempty, clientIpFor, hxff]
  · intro hempty hxff hhost hcomma htrim
    simp only [handleIp]
    rw [hempty, if_pos rfl]
    simp only [clientIpFor]
    rw [hxff, if_pos rfl, hhost, hcomma]
    exact htrim

/-- Witness for C8 at concrete inputs: the explicit path IP wins over a
forwarded header; with an empty path the first forwarded entry is used; with
neither, the host part of the IPv4 peer address `"10.1.2.3:5555"` is used. -/
theorem c8_subject_ip_witness :
    handleIp "/lookup/8.8.8.8".toList "/lookup/".toList
      "203.0.113.5".toList "10.1.2.3:5555".toList = "8.8.8.8".toList ∧
    handleIp "/lookup".toList "/lookup".toList
      "203.0.113.5, 10.0.0.1".toList "10.1.2.3:5555".toList =
      trimSpace ((splitOnChar ',' "203.0.113.5, 10.0.0.1".toList).headD []) ∧
    handleIp "/lookup".toList "/lookup".toList [] "10.1.2.3:5555".toList =
      "10.1.2.3".toList :=
  ⟨by
    have h := (c8_subject_ip "/lookup/8.8.8.8".toList "/lookup/".toList
      "203.0.113.5".toList "10.1.2.3:5555".toList []).1 (by decide)
    rw [h]; decide,
   (c8_subject_ip "/lookup".toList "/lookup".toList
      "203.0.113.5, 10.0.0.1".toList "10.1.2.3:5555".toList []).2.1
      (by decide) (by decide),
   (c8_subject_ip "/lookup".toList "/lookup".toList [] "10.1.2.3:5555".toList
      "10.1.2.3".toList).2.2.1 (by decide) rfl (by decide) (by decide)
      (by decide)⟩

/-- C10: with an empty path segment and no `X-Forwarded-For` header, the
derived client IP is the substring of `req.RemoteAddr` strictly before its
first colon (then comma-split and trimmed; when that substring is comma-free
it is exactly the trimmed before-colon substring).  For an IPv6
address-colon-port peer address such as `"[2001:db8::1]:443"` the derived
string is `"[2001"`, which contains `'['` and is therefore not a valid IP
address literal. -/
theorem c10_peer_address_colon (remoteAddr host : Str) :
    (clientIpFor [] remoteAddr =
      trimSpace ((splitOnChar ','
        (remoteAddr.takeWhile (fun c => c != ':'))).headD [])) ∧
    (remoteAddr.takeWhile (fun c => c != ':') = host →
      splitOnChar ',' host = [host] →
      clientIpFor [] remoteAddr = trimSpace host) ∧
    (clientIpFor [] "[2001:db8::1]:443".toList = "[2001".toList) ∧
    (handleIp "/lookup/".toList "/lookup/".toList []
      "[2001:db8::1]:443".toList = "[2001".toList) ∧
    ("[2001".toList.all validIPChar = false) := by
  refine ⟨?_, ?_, by decide, by decide, by decide⟩
  · simp only [clientIpFor, if_true]
    rw [headD_splitOnChar ':' remoteAddr]
  · intro hhost hcomma
    simp only [clientIpFor, if_true]
    rw [headD_splitOnChar ':' remoteAddr, hhost, hcomma]
    rfl

/-- Witness for C10 at concrete inputs: for the IPv4 peer address
`"10.1.2.3:5555"` (comma-free host part) the derived IP is the trimmed
before-colon substring `"10.1.2.3"`. -/
theorem c10_peer_address_colon_witness :
    clientIpFor [] "10.1.2.3:5555".toList = trimSpace "10.1.2.3".toList :=
  (c10_peer_address_colon "10.1.2.3:5555".toList "10.1.2.3".toList).2.1
    (by decide) (by decide)

theorem add_entries_head (c : LRU) (k : Str) (v : Bytes) :
    (c.add k v).entries.head? = some (k, v) := by
  unfold LRU.add
  by_cases h : c.maxEntries ≠ 0 ∧
      ((k, v) :: c.entries.filter (fun q => q.1 != k)).length > c.maxEntries
  · rw [if_pos h]
    rcases h with ⟨hne, hgt⟩
    cases hr : c.entries.filter (fun q => q.1 != k) with
    | nil =>
      rw [hr] at hgt
      simp at hgt
      omega
    | cons x xs =>
      simp [List.dropLast_cons₂]
  · rw [if_neg h]
    rfl

/-- Counterexample to C9: the cache key is the request string exactly as
received, not a normalized address.  `"::1"` and `"0:0:0:0:0:0:0:1"` are two
textually different spellings that `parseIP` maps to the same address, yet
after a Lookup for `"::1"` is processed and cached, a get for the other
spelling still misses — the two spellings do NOT map to the same cache
key. -/
theorem c9_counterexample :
    extLoopback.parseIP loopA = extLoopback.parseIP loopB ∧
    loopA ≠ loopB ∧
    ((handleLookup extLoopback serverWithDb loopA).1.cache.get loopA).1 =
      some [1] ∧
    ((handleLookup extLoopback serverWithDb loopA).1.cache.get loopB).1 =
      none := by
  refine ⟨by decide, by decide, by decide, by decide⟩

/-- C9 (amended): cache entries are keyed by the IP string exactly as
received (the raw request string, with no normalization), while the decoder
lookup is invoked on the parsed form of that string; consequently two
textually different spellings of the same IP address occupy distinct cache
entries rather than sharing one key.  On a cache miss whose database lookup
succeeds, the new most-recently-used cache entry is keyed by the raw request
string, the reply carries the serialized bytes, and those bytes were produced
by invoking the decoder on `parseIP` of that string. -/
theorem c9_raw_key (ext : Externals) (server : GeoServer) (ip : Str)
    (jsonData : Bytes) (hmiss : (server.cache.get ip).1 = none)
    (hdb : lookupDB ext server ip = some jsonData) :
    (handleLookup ext server ip).1.cache.entries.head? = some (ip, jsonData) ∧
    (handleLookup ext server ip).2 = some jsonData ∧
    (∃ db geoData, server.db = some db ∧
      db.city (ext.parseIP ip) = .ok geoData ∧
      ext.marshal geoData = some jsonData) := by
  have hl : handleLookup ext server ip =
      ({ server with cache := server.cache.add ip jsonData }, some jsonData) := by
    rcases hg : server.cache.get ip with ⟨fst, snd⟩
    rw [hg] at hmiss; subst hmiss
    simp [handleLookup, hg, hdb]
  refine ⟨?_, ?_, ?_⟩
  · rw [hl]
    exact add_entries_head server.cache ip jsonData
  · rw [hl]
  · unfold lookupDB at hdb
    cases hdbv : server.db with
    | none => rw [hdbv] at hdb; exact absurd hdb (by simp)
    | some db =>
      rw [hdbv] at hdb
      have hdb' : (match db.city (ext.parseIP ip) with
          | .error _ => none
          | .ok geoData =>
            match ext.marshal geoData with
            | none => none
            | some jsonData => some jsonData) = some jsonData := hdb
      cases hcity : db.city (ext.parseIP ip) with
      | error e => rw [hcity] at hdb'; simp at hdb'
      | ok geoData =>
        rw [hcity] at hdb'
        have hdb2 : (match ext.marshal geoData with
            | none => none
            | some jsonData => some jsonData) = some jsonData := hdb'
        cases hm : ext.marshal geoData with
        | none => rw [hm] at hdb2; simp at hdb2
        | some bytes =>
          rw [hm] at hdb2
          simp at hdb2
          exact ⟨db, geoData, rfl, hcity, by rw [hm, hdb2]⟩

/-- Witness for the amended C9 at concrete inputs: a Lookup for the spelling
`"::1"` against `serverWithDb` caches under exactly that raw string, replies
with the serialized record, and went through `parseIP`. -/
theorem c9_raw_key_witness :
    (handleLookup extLoopback serverWithDb loopA).1.cache.entries.head? =
      some (loopA, [1]) ∧
    (handleLookup extLoopback serverWithDb loopA).2 = some [1] ∧
    (∃ db geoData, serverWithDb.db = some db ∧
      db.city (extLoopback.parseIP loopA) = .ok geoData ∧
      extLoopback.marshal geoData = some [1]) :=
  c9_raw_key extLoopback serverWithDb loopA [1] (by decide) (by decide)
